import Mathlib

/-! Feature support checker of `pkg/scyllafeatures`.

A shallow embedding of `pkg/scyllafeatures/scyllafeatures.go` together with the part of its
dependency `github.com/blang/semver` that the package calls (`Parse`, `MustParse`, `Compare`,
`GTE`, `LT`), followed by theorems about `Supports`, `isEnterprise` and `isOpenSource`.

Conventions of the embedding:

* a Go `string` is a Lean `String`; the parser works on its list of characters. Every byte
  sequence that is not valid UTF-8 is rejected by `semver.Parse` (each component is checked
  character by character against an ASCII set), so nothing that parses is lost;
* `uint64` is `Nat`; the one place where the width matters, `strconv.ParseUint`, fails
  explicitly at `2 ^ 64`;
* Go's `int` result of `Compare` is `Int`;
* a Go result pair `(T, error)` of the library is `Except`; the result `(bool, error)` of
  `Supports` is kept as a pair `Bool × Option SupportsError`, `none` standing for `nil`;
* an error value keeps the arguments of its format string; `Error` renders its message,
  with `%q` as `strconv.Quote`, and `Unwrap` returns the operand of `%w`.
-/

/-! ## `strings` and `strconv` helpers used by the version parser -/

namespace strings

/-- Splits `s` around the first occurrence of `sep`: the text before it and the text after
it, or `none` when `sep` does not occur (`strings.Index` returning `-1`). -/
def cut (sep : Char) : List Char → Option (List Char × List Char)
  | [] => none
  | c :: cs =>
    if c = sep then some ([], cs)
    else
      match cut sep cs with
      | none => none
      | some (a, b) => some (c :: a, b)

/-- Go `strings.SplitN(s, sep, n)` for a one-character separator and `n ≥ 0`: at most `n`
substrings, the last one being the unsplit remainder. -/
def SplitN (sep : Char) : Nat → List Char → List (List Char)
  | 0, _ => []
  | 1, s => [s]
  | n + 2, s =>
    match cut sep s with
    | none => [s]
    | some (a, b) => a :: SplitN sep (n + 1) b

/-- Go `strings.Split(s, sep)` for a one-character separator: all substrings between
occurrences of `sep`; the empty string yields one empty substring. -/
def Split (sep : Char) : List Char → List (List Char)
  | [] => [[]]
  | c :: cs =>
    if c = sep then [] :: Split sep cs
    else
      match Split sep cs with
      | [] => [[c]]
      | h :: t => (c :: h) :: t

end strings

namespace strconv

/-- The two failure causes of `strconv.ParseUint`: `ErrSyntax` and `ErrRange`. -/
inductive NumError where
  | ErrSyntax
  | ErrRange
  deriving DecidableEq, Repr

/-- Go `strconv.ParseUint(s, 10, 64)`: the empty string and any non-digit are syntax errors,
a value that does not fit 64 bits is a range error. -/
def ParseUint (s : List Char) : Except NumError Nat :=
  if s = [] then .error .ErrSyntax
  else if !(s.all fun c => c.isDigit) then .error .ErrSyntax
  else
    let n := s.foldl (fun acc c => acc * 10 + (c.toNat - 48)) 0
    if 2 ^ 64 ≤ n then .error .ErrRange else .ok n

end strconv

/-! ## `github.com/blang/semver` -/

namespace semver

def numbers : String := "0123456789"

def alphas : String := "abcdefghijklmnopqrstuvwxyzABCDEFGHIJKLMNOPQRSTUVWXYZ-"

def alphanum : String := alphas ++ numbers

/-- A pre-release identifier: either numeric or alphanumeric. -/
structure PRVersion where
  VersionStr : String
  VersionNum : Nat
  IsNum : Bool
  deriving DecidableEq, Repr

/-- A semantic version; `Build` takes no part in precedence. -/
structure Version where
  Major : Nat
  Minor : Nat
  Patch : Nat
  Pre : List PRVersion
  Build : List String
  deriving DecidableEq, Repr

/-- The errors `Parse` and `NewPRVersion` return, one constructor per message, carrying the
quoted text of the message. -/
inductive Error where
  | versionStringEmpty
  | noMajorMinorPatch
  | invalidMajor (s : String)
  | leadingZeroesMajor (s : String)
  | invalidMinor (s : String)
  | leadingZeroesMinor (s : String)
  | invalidPatch (s : String)
  | leadingZeroesPatch (s : String)
  | numError (s : String) (e : strconv.NumError)
  | prereleaseEmpty
  | leadingZeroesPrerelease (s : String)
  | invalidPrerelease (s : String)
  | buildEmpty
  | invalidBuild (s : String)
  deriving DecidableEq, Repr

/-- `containsOnly(s, set)`: no character of `s` lies outside `set`. -/
def containsOnly (s : List Char) (set : String) : Bool :=
  s.all fun r => set.toList.elem r

/-- `hasLeadingZeroes(s)`: `len(s) > 1 && s[0] == '0'`. -/
def hasLeadingZeroes (s : List Char) : Bool :=
  decide (s.length > 1) && s.head? == some '0'

/-- `PRVersion.Compare`: numeric identifiers order below alphanumeric ones, numeric ones by
value, alphanumeric ones as strings. -/
def PRVersion.Compare (v o : PRVersion) : Int :=
  if v.IsNum && !o.IsNum then -1
  else if !v.IsNum && o.IsNum then 1
  else if v.IsNum && o.IsNum then
    if v.VersionNum = o.VersionNum then 0
    else if v.VersionNum > o.VersionNum then 1
    else -1
  else
    if v.VersionStr = o.VersionStr then 0
    else if v.VersionStr > o.VersionStr then 1
    else -1

/-- The pre-release loop of `Version.Compare` and the length test that follows it: the
first differing pair decides; when one list is a prefix of the other the longer is greater. -/
def comparePre : List PRVersion → List PRVersion → Int
  | [], [] => 0
  | [], _ :: _ => -1
  | _ :: _, [] => 1
  | a :: as, b :: bs =>
    let comp := a.Compare b
    if comp = 0 then comparePre as bs
    else if comp = 1 then 1
    else -1

/-- `Version.Compare`: `-1`, `0` or `1` as `v` is less than, equal to or greater than `o`. -/
def Version.Compare (v o : Version) : Int :=
  if v.Major ≠ o.Major then
    if v.Major > o.Major then 1 else -1
  else if v.Minor ≠ o.Minor then
    if v.Minor > o.Minor then 1 else -1
  else if v.Patch ≠ o.Patch then
    if v.Patch > o.Patch then 1 else -1
  else if v.Pre.length = 0 ∧ o.Pre.length = 0 then 0
  else if v.Pre.length = 0 ∧ o.Pre.length > 0 then 1
  else if v.Pre.length > 0 ∧ o.Pre.length = 0 then -1
  else comparePre v.Pre o.Pre

/-- `Version.GTE`: `v.Compare(o) >= 0`. -/
def Version.GTE (v o : Version) : Bool :=
  decide (v.Compare o ≥ 0)

/-- `Version.LT`: `v.Compare(o) == -1`. -/
def Version.LT (v o : Version) : Bool :=
  decide (v.Compare o = -1)

/-- `NewPRVersion`: a valid pre-release identifier or an error. -/
def NewPRVersion (s : List Char) : Except Error PRVersion :=
  if s.length = 0 then .error .prereleaseEmpty
  else if containsOnly s numbers then
    if hasLeadingZeroes s then .error (.leadingZeroesPrerelease (String.mk s))
    else
      match strconv.ParseUint s with
      | .error e => .error (.numError (String.mk s) e)
      | .ok num => .ok { VersionStr := "", VersionNum := num, IsNum := true }
  else if containsOnly s alphanum then
    .ok { VersionStr := String.mk s, VersionNum := 0, IsNum := false }
  else .error (.invalidPrerelease (String.mk s))

/-- The loop of `Parse` over the pre-release identifiers, stopping at the first error. -/
def parsePrerelease : List (List Char) → Except Error (List PRVersion)
  | [] => .ok []
  | prstr :: rest =>
    match NewPRVersion prstr with
    | .error e => .error e
    | .ok parsedPR =>
      match parsePrerelease rest with
      | .error e => .error e
      | .ok prs => .ok (parsedPR :: prs)

/-- The loop of `Parse` over the build meta data, stopping at the first error. -/
def parseBuild : List (List Char) → Except Error (List String)
  | [] => .ok []
  | str :: rest =>
    if str.length = 0 then .error .buildEmpty
    else if !containsOnly str alphanum then .error (.invalidBuild (String.mk str))
    else
      match parseBuild rest with
      | .error e => .error e
      | .ok bs => .ok (String.mk str :: bs)

/-- The number check applied to each of major, minor and patch: digits only, no leading
zeroes, fits 64 bits. -/
def parseNumber (invalid leading : String → Error) (part : List Char) : Except Error Nat :=
  if !containsOnly part numbers then .error (invalid (String.mk part))
  else if hasLeadingZeroes part then .error (leading (String.mk part))
  else
    match strconv.ParseUint part with
    | .error e => .error (.numError (String.mk part) e)
    | .ok n => .ok n

/-- `Parse`: parses a version string and returns a validated `Version` or an error. -/
def Parse (s : String) : Except Error Version :=
  if s.toList.length = 0 then .error .versionStringEmpty
  else
    match strings.SplitN '.' 3 s.toList with
    | [p0, p1, p2] =>
      match parseNumber .invalidMajor .leadingZeroesMajor p0 with
      | .error e => .error e
      | .ok major =>
        match parseNumber .invalidMinor .leadingZeroesMinor p1 with
        | .error e => .error e
        | .ok minor =>
          let (patchStr, build) :=
            match strings.cut '+' p2 with
            | some (a, b) => (a, strings.Split '.' b)
            | none => (p2, [])
          let (patchStr, prerelease) :=
            match strings.cut '-' patchStr with
            | some (a, b) => (a, strings.Split '.' b)
            | none => (patchStr, [])
          match parseNumber .invalidPatch .leadingZeroesPatch patchStr with
          | .error e => .error e
          | .ok patch =>
            match parsePrerelease prerelease with
            | .error e => .error e
            | .ok pre =>
              match parseBuild build with
              | .error e => .error e
              | .ok bld =>
                .ok { Major := major, Minor := minor, Patch := patch, Pre := pre, Build := bld }
    | _ => .error .noMajorMinorPatch

/-- `MustParse`: like `Parse`, but the Go function panics when the string does not parse;
the zero `Version` stands for the panic here, and `mustParse_*` below show that none of the
three package-level uses reaches it. -/
def MustParse (s : String) : Version :=
  match Parse s with
  | .ok v => v
  | .error _ => { Major := 0, Minor := 0, Patch := 0, Pre := [], Build := [] }

end semver

/-! ## `pkg/scyllafeatures` -/

namespace scyllafeatures

def scyllaEnterpriseMinimalVersion : semver.Version := semver.MustParse "2000.0.0"

/-- `type ScyllaFeature string`. -/
abbrev ScyllaFeature := String

def ReplacingNodeUsingHostID : ScyllaFeature := "ReplacingNodeUsingHostID"

structure scyllaDBVersionMinimalConstraint where
  openSource : semver.Version
  enterprise : semver.Version
  deriving DecidableEq, Repr

/-- The static threshold table, a Go map with one key, as an association list read with
`List.lookup`. -/
def featureMinimalVersionConstraints : List (ScyllaFeature × scyllaDBVersionMinimalConstraint) :=
  [(ReplacingNodeUsingHostID,
    { openSource := semver.MustParse "5.2.0", enterprise := semver.MustParse "2023.1.0" })]

/-- Modelled from the spec: the type `scyllav1.ScyllaClusterSpec` of `pkg/api/scylla/v1` is
not part of the sources; `Supports` reads only its `Version` field, the declared version
string of the cluster. -/
structure ScyllaClusterSpec where
  Version : String
  deriving DecidableEq, Repr

/-- Modelled from the spec: the type `scyllav1.ScyllaCluster` of `pkg/api/scylla/v1` is not
part of the sources; `Supports` reads only `sc.Spec.Version`. The argument of `Supports`
is a pointer in Go; a cluster value here is what a non-nil pointer refers to. -/
structure ScyllaCluster where
  Spec : ScyllaClusterSpec
  deriving DecidableEq, Repr

/-- The two errors `Supports` builds with `fmt.Errorf`, each with the arguments of its
format string: the unknown feature, and the version string with the wrapped parse error. -/
inductive SupportsError where
  | UnknownFeature (feature : ScyllaFeature)
  | InvalidVersion (version : String) (err : semver.Error)
  deriving DecidableEq, Repr

def isEnterprise (v : semver.Version) : Bool :=
  v.GTE scyllaEnterpriseMinimalVersion

def isOpenSource (v : semver.Version) : Bool :=
  v.LT scyllaEnterpriseMinimalVersion

def Supports (sc : ScyllaCluster) (feature : ScyllaFeature) : Bool × Option SupportsError :=
  match featureMinimalVersionConstraints.lookup feature with
  | none => (false, some (.UnknownFeature feature))
  | some constraints =>
    match semver.Parse sc.Spec.Version with
    | .error err => (false, some (.InvalidVersion sc.Spec.Version err))
    | .ok version =>
      if isOpenSource version && version.GTE constraints.openSource then (true, none)
      else if isEnterprise version && version.GTE constraints.enterprise then (true, none)
      else (false, none)

end scyllafeatures

/-! ## Error messages: `strconv.Quote`, `Error()` and `Unwrap()` -/

set_option linter.dupNamespace false

namespace strconv

/-- The double quote `"` that `Quote` puts around its result and escapes inside it. -/
def quoteChar : Char := Char.ofNat 34

/-- The backslash that introduces an escape sequence. -/
def backslash : Char := Char.ofNat 92

def lowerhex : String := "0123456789abcdef"

/-- The hexadecimal digit `lowerhex[n & 0xF]`. -/
def hexDigit (n : Nat) : Char :=
  lowerhex.toList.getD (n % 16) '0'

/-- Go `strconv.IsPrint`: the Latin-1 fast path is written out; above `0xFF` the Go function
searches the generated tables `isPrint16`, `isNotPrint16`, `isPrint32` and `isNotPrint32`,
which are taken here as the parameter `table`. -/
def IsPrint (table : Char → Bool) (r : Char) : Bool :=
  if r.toNat ≤ 0xFF then
    if 0x20 ≤ r.toNat ∧ r.toNat ≤ 0x7E then true
    else if 0xA1 ≤ r.toNat ∧ r.toNat ≤ 0xFF then r.toNat != 0xAD
    else false
  else table r

/-- Go `appendEscapedRune(buf, r, '"', false, false)`, as the characters appended for `r`:
the quote and the backslash are always backslashed, a printable character stands for
itself, anything else becomes an escape sequence. -/
def appendEscapedRune (table : Char → Bool) (r : Char) : List Char :=
  if r = quoteChar ∨ r = backslash then [backslash, r]
  else if IsPrint table r then [r]
  else if r.toNat = 7 then [backslash, 'a']
  else if r.toNat = 8 then [backslash, 'b']
  else if r.toNat = 12 then [backslash, 'f']
  else if r.toNat = 10 then [backslash, 'n']
  else if r.toNat = 13 then [backslash, 'r']
  else if r.toNat = 9 then [backslash, 't']
  else if r.toNat = 11 then [backslash, 'v']
  else if r.toNat < 0x20 ∨ r.toNat = 0x7f then
    [backslash, 'x', hexDigit (r.toNat / 16), hexDigit r.toNat]
  else if r.toNat < 0x10000 then
    [backslash, 'u', hexDigit (r.toNat / 4096), hexDigit (r.toNat / 256),
      hexDigit (r.toNat / 16), hexDigit r.toNat]
  else
    [backslash, 'U', hexDigit (r.toNat / 268435456), hexDigit (r.toNat / 16777216),
      hexDigit (r.toNat / 1048576), hexDigit (r.toNat / 65536),
      hexDigit (r.toNat / 4096), hexDigit (r.toNat / 256),
      hexDigit (r.toNat / 16), hexDigit r.toNat]

/-- Go `strconv.Quote(s)`, which is what the verb `%q` of `fmt` prints for a string: the
escaped characters of `s` between two double quotes. -/
def Quote (table : Char → Bool) (s : String) : String :=
  String.mk (quoteChar :: (s.toList.map (appendEscapedRune table)).flatten ++ [quoteChar])

/-- The message of `ErrSyntax` and of `ErrRange`. -/
def NumError.Error : NumError → String
  | .ErrSyntax => "invalid syntax"
  | .ErrRange => "value out of range"

end strconv

namespace semver

/-- The message of each error of `Parse`; a failure of `strconv.ParseUint` is returned as it
is and prints as a `*strconv.NumError`. -/
def Error.Error (table : Char → Bool) : Error → String
  | .versionStringEmpty => "Version string empty"
  | .noMajorMinorPatch => "No Major.Minor.Patch elements found"
  | .invalidMajor s => "Invalid character(s) found in major number " ++ strconv.Quote table s
  | .leadingZeroesMajor s =>
    "Major number must not contain leading zeroes " ++ strconv.Quote table s
  | .invalidMinor s => "Invalid character(s) found in minor number " ++ strconv.Quote table s
  | .leadingZeroesMinor s =>
    "Minor number must not contain leading zeroes " ++ strconv.Quote table s
  | .invalidPatch s => "Invalid character(s) found in patch number " ++ strconv.Quote table s
  | .leadingZeroesPatch s =>
    "Patch number must not contain leading zeroes " ++ strconv.Quote table s
  | .numError s e =>
    "strconv.ParseUint: parsing " ++ strconv.Quote table s ++ ": " ++ e.Error
  | .prereleaseEmpty => "Prerelease is empty"
  | .leadingZeroesPrerelease s =>
    "Numeric PreRelease version must not contain leading zeroes " ++ strconv.Quote table s
  | .invalidPrerelease s =>
    "Invalid character(s) found in prerelease " ++ strconv.Quote table s
  | .buildEmpty => "Build meta data is empty"
  | .invalidBuild s =>
    "Invalid character(s) found in build meta data " ++ strconv.Quote table s

end semver

namespace scyllafeatures

/-- The message of the error built by `fmt.Errorf` in `Supports`: `%q` prints its argument
with `strconv.Quote`, `%w` prints the message of the wrapped error. -/
def SupportsError.Error (table : Char → Bool) : SupportsError → String
  | .UnknownFeature feature =>
    "unable to find minimal version constraints, unknown feature " ++
      strconv.Quote table feature
  | .InvalidVersion version err =>
    "can't parse ScyllaCluster version " ++ strconv.Quote table version ++ ": " ++
      err.Error table

/-- What `errors.Unwrap` returns: the operand of `%w`, and nothing for a format without
`%w`. -/
def SupportsError.Unwrap : SupportsError → Option semver.Error
  | .UnknownFeature _ => none
  | .InvalidVersion _ err => some err

end scyllafeatures

/-! ## Pre-release tags as Semantic Versioning 2.0.0 defines them

These definitions follow the words of the claim about pre-release tags, not the source:
they say what a valid pre-release tag is, for comparison with what `semver.Parse` accepts. -/

namespace semverSpec

/-- The characters of an identifier: ASCII alphanumerics and the hyphen, `[0-9A-Za-z-]`. -/
def identifierChars : List Char :=
  "0123456789ABCDEFGHIJKLMNOPQRSTUVWXYZabcdefghijklmnopqrstuvwxyz-".toList

def digits : List Char := "0123456789".toList

/-- A numeric identifier consists of digits only. -/
def isNumeric (s : List Char) : Bool :=
  s.all fun c => decide (c ∈ digits)

/-- The number that a string of digits denotes. -/
def decimalValue (s : List Char) : Nat :=
  s.foldl (fun acc c => acc * 10 + (c.toNat - 48)) 0

/-- A valid identifier is not empty, has only characters of `[0-9A-Za-z-]`, and when it is
numeric it has no leading zero. -/
def validIdentifier (s : List Char) : Bool :=
  !s.isEmpty && s.all (fun c => decide (c ∈ identifierChars)) &&
    (!isNumeric s || s.length == 1 || s.head? != some '0')

/-- A valid pre-release tag is a series of valid identifiers separated by dots. -/
def validPrereleaseTag (p : String) : Bool :=
  (p.toList.splitOn '.').all validIdentifier

/-- Every numeric identifier of the tag denotes a number below `2 ^ 64`. -/
def numericIdentifiersFit (p : String) : Bool :=
  (p.toList.splitOn '.').all fun s => !isNumeric s || decide (decimalValue s < 2 ^ 64)

end semverSpec

/-! ## Facts about the version order -/

namespace semver

theorem prCompare_cases (v o : PRVersion) :
    v.Compare o = -1 ∨ v.Compare o = 0 ∨ v.Compare o = 1 := by
  unfold PRVersion.Compare
  split_ifs <;> simp

theorem comparePre_cases (a b : List PRVersion) :
    comparePre a b = -1 ∨ comparePre a b = 0 ∨ comparePre a b = 1 := by
  induction a generalizing b with
  | nil => cases b <;> simp [comparePre]
  | cons x xs ih =>
    cases b with
    | nil => simp [comparePre]
    | cons y ys =>
      simp only [comparePre]
      split_ifs
      · exact ih ys
      · simp
      · simp

/-- The result of `Compare` is one of `-1`, `0`, `1`. -/
theorem compare_cases (v o : Version) :
    v.Compare o = -1 ∨ v.Compare o = 0 ∨ v.Compare o = 1 := by
  unfold Version.Compare
  split_ifs
  any_goals simp
  exact comparePre_cases v.Pre o.Pre

/-- The comparison `LT` is the negation of `GTE`. -/
theorem lt_eq_not_gte (v o : Version) : v.LT o = !v.GTE o := by
  unfold Version.LT Version.GTE
  rcases compare_cases v o with h | h | h <;> simp [h]

/-- Comparing with a version that has no pre-release tag looks at the three numbers and
at whether `v` has a pre-release tag. -/
theorem compare_release (v : Version) (M m p : Nat) (b : List String) :
    v.Compare ⟨M, m, p, [], b⟩ =
      if v.Major ≠ M then (if v.Major > M then 1 else -1)
      else if v.Minor ≠ m then (if v.Minor > m then 1 else -1)
      else if v.Patch ≠ p then (if v.Patch > p then 1 else -1)
      else if v.Pre = [] then 0 else -1 := by
  unfold Version.Compare
  cases hpre : v.Pre <;> simp

theorem mustParse_boundary : MustParse "2000.0.0" = ⟨2000, 0, 0, [], []⟩ := rfl

theorem mustParse_openSource : MustParse "5.2.0" = ⟨5, 2, 0, [], []⟩ := rfl

theorem mustParse_enterprise : MustParse "2023.1.0" = ⟨2023, 1, 0, [], []⟩ := rfl

end semver

namespace scyllafeatures

theorem boundary_eq : scyllaEnterpriseMinimalVersion = ⟨2000, 0, 0, [], []⟩ := rfl

theorem table_eq :
    featureMinimalVersionConstraints =
      [(ReplacingNodeUsingHostID, ⟨⟨5, 2, 0, [], []⟩, ⟨2023, 1, 0, [], []⟩⟩)] := rfl

/-- The table has one key: a lookup succeeds exactly for `ReplacingNodeUsingHostID`. -/
theorem lookup_eq_some {f : ScyllaFeature} {c : scyllaDBVersionMinimalConstraint}
    (h : featureMinimalVersionConstraints.lookup f = some c) :
    f = ReplacingNodeUsingHostID ∧ c = ⟨⟨5, 2, 0, [], []⟩, ⟨2023, 1, 0, [], []⟩⟩ := by
  rw [table_eq] at h
  simp only [List.lookup] at h
  split at h
  · rename_i heq
    exact ⟨by simpa using heq, by simpa using h.symm⟩
  · simp at h

theorem lookup_eq_none {f : ScyllaFeature} (h : f ≠ ReplacingNodeUsingHostID) :
    featureMinimalVersionConstraints.lookup f = none := by
  rw [table_eq]
  simp only [List.lookup]
  split
  · rename_i heq
    exact absurd (by simpa using heq) h
  · rfl

theorem isOpenSource_eq_not (v : semver.Version) : isOpenSource v = !isEnterprise v :=
  semver.lt_eq_not_gte v _

/-- The body of `Supports` once the lookup and the parse have succeeded. -/
theorem supports_of_parsed {sc : ScyllaCluster} {f : ScyllaFeature}
    {c : scyllaDBVersionMinimalConstraint} {v : semver.Version}
    (hf : featureMinimalVersionConstraints.lookup f = some c)
    (hp : semver.Parse sc.Spec.Version = .ok v) :
    Supports sc f =
      if isOpenSource v && v.GTE c.openSource then (true, none)
      else if isEnterprise v && v.GTE c.enterprise then (true, none)
      else (false, none) := by
  simp only [Supports, hf, hp]

/-- The four outcomes of `Supports`, by lookup and parse result. -/
theorem supports_outcomes (sc : ScyllaCluster) (f : ScyllaFeature) :
    (featureMinimalVersionConstraints.lookup f = none ∧
        Supports sc f = (false, some (.UnknownFeature f))) ∨
      (∃ c e, featureMinimalVersionConstraints.lookup f = some c ∧
        semver.Parse sc.Spec.Version = .error e ∧
        Supports sc f = (false, some (.InvalidVersion sc.Spec.Version e))) ∨
      (∃ c v, featureMinimalVersionConstraints.lookup f = some c ∧
        semver.Parse sc.Spec.Version = .ok v ∧
        (Supports sc f = (true, none) ∨ Supports sc f = (false, none))) := by
  cases hf : featureMinimalVersionConstraints.lookup f with
  | none => simp [Supports, hf]
  | some c =>
    cases hp : semver.Parse sc.Spec.Version with
    | error e => simp [Supports, hf, hp]
    | ok v =>
      rw [supports_of_parsed hf hp]
      split_ifs <;> simp

end scyllafeatures

/-! ## The contract of `Supports` -/

namespace scyllafeatures

/-- C1: for a registered feature `f` with constraints `c` and a version string that parses
to `v` with `v < 2000.0.0`, `Supports` returns `(true, nil)` exactly when `v` is at or above
the open-source threshold of `f`, and `(false, nil)` otherwise. -/
theorem supports_openSource_iff (sc : ScyllaCluster) (f : ScyllaFeature)
    (c : scyllaDBVersionMinimalConstraint) (v : semver.Version)
    (hf : featureMinimalVersionConstraints.lookup f = some c)
    (hp : semver.Parse sc.Spec.Version = .ok v)
    (hlt : v.Compare ⟨2000, 0, 0, [], []⟩ = -1) :
    (Supports sc f = (true, none) ↔ v.Compare c.openSource ≥ 0) ∧
      (¬ v.Compare c.openSource ≥ 0 → Supports sc f = (false, none)) := by
  have hos : isOpenSource v = true := by
    simp [isOpenSource, semver.Version.LT, boundary_eq, hlt]
  have hent : isEnterprise v = false := by
    simp [isEnterprise, semver.Version.GTE, boundary_eq, hlt]
  rw [supports_of_parsed hf hp, hos, hent]
  by_cases hge : v.Compare c.openSource ≥ 0
  · simp [semver.Version.GTE, hge]
  · simp [semver.Version.GTE, hge]

theorem supports_openSource_iff_witness :
    semver.Parse "5.1.9" = .ok ⟨5, 1, 9, [], []⟩ ∧
      Supports ⟨⟨"5.1.9"⟩⟩ ReplacingNodeUsingHostID = (false, none) ∧
      (Supports ⟨⟨"5.3.1"⟩⟩ ReplacingNodeUsingHostID = (true, none) ↔
        (⟨5, 3, 1, [], []⟩ : semver.Version).Compare ⟨5, 2, 0, [], []⟩ ≥ 0) :=
  ⟨rfl,
    (supports_openSource_iff ⟨⟨"5.1.9"⟩⟩ ReplacingNodeUsingHostID
      ⟨⟨5, 2, 0, [], []⟩, ⟨2023, 1, 0, [], []⟩⟩ ⟨5, 1, 9, [], []⟩ rfl rfl (by decide)).2
      (by decide),
    (supports_openSource_iff ⟨⟨"5.3.1"⟩⟩ ReplacingNodeUsingHostID
      ⟨⟨5, 2, 0, [], []⟩, ⟨2023, 1, 0, [], []⟩⟩ ⟨5, 3, 1, [], []⟩ rfl rfl (by decide)).1⟩

/-- C2: for a registered feature `f` with constraints `c` and a version string that parses
to `v` with `v >= 2000.0.0`, `Supports` returns `(true, nil)` exactly when `v` is at or above
the enterprise threshold of `f`, and `(false, nil)` otherwise. -/
theorem supports_enterprise_iff (sc : ScyllaCluster) (f : ScyllaFeature)
    (c : scyllaDBVersionMinimalConstraint) (v : semver.Version)
    (hf : featureMinimalVersionConstraints.lookup f = some c)
    (hp : semver.Parse sc.Spec.Version = .ok v)
    (hge : v.Compare ⟨2000, 0, 0, [], []⟩ ≥ 0) :
    (Supports sc f = (true, none) ↔ v.Compare c.enterprise ≥ 0) ∧
      (¬ v.Compare c.enterprise ≥ 0 → Supports sc f = (false, none)) := by
  have hent : isEnterprise v = true := by
    simp [isEnterprise, semver.Version.GTE, boundary_eq, hge]
  have hos : isOpenSource v = false := by
    rw [isOpenSource_eq_not, hent]; rfl
  rw [supports_of_parsed hf hp, hos, hent]
  by_cases hth : v.Compare c.enterprise ≥ 0
  · simp [semver.Version.GTE, hth]
  · simp [semver.Version.GTE, hth]

theorem supports_enterprise_iff_witness :
    semver.Parse "2021.1.5" = .ok ⟨2021, 1, 5, [], []⟩ ∧
      Supports ⟨⟨"2021.1.5"⟩⟩ ReplacingNodeUsingHostID = (false, none) ∧
      (Supports ⟨⟨"2024.2.0"⟩⟩ ReplacingNodeUsingHostID = (true, none) ↔
        (⟨2024, 2, 0, [], []⟩ : semver.Version).Compare ⟨2023, 1, 0, [], []⟩ ≥ 0) :=
  ⟨rfl,
    (supports_enterprise_iff ⟨⟨"2021.1.5"⟩⟩ ReplacingNodeUsingHostID
      ⟨⟨5, 2, 0, [], []⟩, ⟨2023, 1, 0, [], []⟩⟩ ⟨2021, 1, 5, [], []⟩ rfl rfl (by decide)).2
      (by decide),
    (supports_enterprise_iff ⟨⟨"2024.2.0"⟩⟩ ReplacingNodeUsingHostID
      ⟨⟨5, 2, 0, [], []⟩, ⟨2023, 1, 0, [], []⟩⟩ ⟨2024, 2, 0, [], []⟩ rfl rfl (by decide)).1⟩

/-- C3: every feature identifier other than `ReplacingNodeUsingHostID` is absent from the
threshold table, and for it `Supports` returns the UnknownFeature error carrying that
identifier whatever the version string is, parseable or not. -/
theorem supports_unknown_feature (sc : ScyllaCluster) (f : ScyllaFeature)
    (hf : f ≠ ReplacingNodeUsingHostID) :
    featureMinimalVersionConstraints.lookup f = none ∧
      Supports sc f = (false, some (.UnknownFeature f)) := by
  have hnone := lookup_eq_none hf
  exact ⟨hnone, by simp only [Supports, hnone]⟩

theorem supports_unknown_feature_witness :
    Supports ⟨⟨"5.2.0"⟩⟩ "UnknownFeature" = (false, some (.UnknownFeature "UnknownFeature")) ∧
      semver.Parse "5.2" = .error .noMajorMinorPatch ∧
      Supports ⟨⟨"5.2"⟩⟩ "UnknownFeature" = (false, some (.UnknownFeature "UnknownFeature")) :=
  ⟨(supports_unknown_feature ⟨⟨"5.2.0"⟩⟩ "UnknownFeature" (by decide)).2, rfl,
    (supports_unknown_feature ⟨⟨"5.2"⟩⟩ "UnknownFeature" (by decide)).2⟩

/-- C4 as stated fails: `"not-a-version"` does not parse, yet with the unregistered feature
`"UnknownFeature"` the error `Supports` returns is UnknownFeature, not InvalidVersion. -/
theorem supports_invalid_version_any_feature_counterexample :
    semver.Parse "not-a-version" = .error .noMajorMinorPatch ∧
      Supports ⟨⟨"not-a-version"⟩⟩ "UnknownFeature" =
        (false, some (.UnknownFeature "UnknownFeature")) ∧
      ∀ (b : Bool) (s : String) (e : semver.Error),
        Supports ⟨⟨"not-a-version"⟩⟩ "UnknownFeature" ≠ (b, some (.InvalidVersion s e)) := by
  refine ⟨rfl, rfl, ?_⟩
  intro b s e h
  have h2 : Supports ⟨⟨"not-a-version"⟩⟩ "UnknownFeature" =
      (false, some (.UnknownFeature "UnknownFeature")) := rfl
  rw [h2] at h
  simp at h

/-- C4 amended: for a version string that fails to parse and a registered feature,
`Supports` returns the InvalidVersion error carrying the string and the parse error. -/
theorem supports_invalid_version (sc : ScyllaCluster) (f : ScyllaFeature)
    (c : scyllaDBVersionMinimalConstraint) (e : semver.Error)
    (hf : featureMinimalVersionConstraints.lookup f = some c)
    (hp : semver.Parse sc.Spec.Version = .error e) :
    Supports sc f = (false, some (.InvalidVersion sc.Spec.Version e)) := by
  simp only [Supports, hf, hp]

theorem supports_invalid_version_witness :
    semver.Parse "5.02.0" = .error (.leadingZeroesMinor "02") ∧
      Supports ⟨⟨"5.02.0"⟩⟩ ReplacingNodeUsingHostID =
        (false, some (.InvalidVersion "5.02.0" (.leadingZeroesMinor "02"))) :=
  ⟨rfl, supports_invalid_version ⟨⟨"5.02.0"⟩⟩ ReplacingNodeUsingHostID
    ⟨⟨5, 2, 0, [], []⟩, ⟨2023, 1, 0, [], []⟩⟩ (.leadingZeroesMinor "02") rfl rfl⟩

/-- C5: `Supports` returns a non-nil error exactly when the feature is not in the threshold
table or the version string fails to parse; there are four outcomes in all: the
UnknownFeature error with `false`, the InvalidVersion error with `false`, and `true` or
`false` with a nil error. -/
theorem supports_error_iff (sc : ScyllaCluster) (f : ScyllaFeature) :
    ((Supports sc f).2 ≠ none ↔
        (featureMinimalVersionConstraints.lookup f = none ∨
          ∃ e, semver.Parse sc.Spec.Version = .error e)) ∧
      (Supports sc f = (false, some (.UnknownFeature f)) ∨
        (∃ e, Supports sc f = (false, some (.InvalidVersion sc.Spec.Version e))) ∨
        Supports sc f = (true, none) ∨ Supports sc f = (false, none)) := by
  rcases supports_outcomes sc f with ⟨hf, h⟩ | ⟨c, e, hf, hp, h⟩ | ⟨c, v, hf, hp, h | h⟩
  · simp [h, hf]
  · simp [h, hf, hp]
  · simp [h, hf, hp]
  · simp [h, hf, hp]

/-- C6: whenever the error returned by `Supports` is non-nil the returned boolean is
`false`. -/
theorem supports_error_false (sc : ScyllaCluster) (f : ScyllaFeature)
    (herr : (Supports sc f).2 ≠ none) : (Supports sc f).1 = false := by
  rcases supports_outcomes sc f with ⟨_, h⟩ | ⟨c, e, _, _, h⟩ | ⟨c, v, _, _, h | h⟩
  · rw [h]
  · rw [h]
  · rw [h] at herr; exact absurd rfl herr
  · rw [h]

theorem supports_error_false_witness :
    Supports ⟨⟨"not-a-version"⟩⟩ ReplacingNodeUsingHostID =
        (false, some (.InvalidVersion "not-a-version" .noMajorMinorPatch)) ∧
      (Supports ⟨⟨"not-a-version"⟩⟩ ReplacingNodeUsingHostID).1 = false :=
  ⟨rfl, supports_error_false ⟨⟨"not-a-version"⟩⟩ ReplacingNodeUsingHostID (by decide)⟩

end scyllafeatures

/-! ## The two version tracks -/

namespace scyllafeatures

/-- C7: every version, with or without pre-release tag and build meta data, is classified
as exactly one of open source and enterprise. -/
theorem tracks_exclusive_exhaustive (v : semver.Version) :
    (isOpenSource v = true ∧ isEnterprise v = false) ∨
      (isOpenSource v = false ∧ isEnterprise v = true) := by
  rw [isOpenSource_eq_not]
  cases isEnterprise v <;> simp

/-- C8 as stated fails: `"2000.0.0-rc.1"` parses to a version whose major component is
`2000`, yet it is classified as open source and not as enterprise. -/
theorem track_by_major_counterexample :
    semver.Parse "2000.0.0-rc.1" =
        .ok ⟨2000, 0, 0, [⟨"rc", 0, false⟩, ⟨"", 1, true⟩], []⟩ ∧
      (⟨2000, 0, 0, [⟨"rc", 0, false⟩, ⟨"", 1, true⟩], []⟩ : semver.Version).Major ≥ 2000 ∧
      isEnterprise ⟨2000, 0, 0, [⟨"rc", 0, false⟩, ⟨"", 1, true⟩], []⟩ = false ∧
      isOpenSource ⟨2000, 0, 0, [⟨"rc", 0, false⟩, ⟨"", 1, true⟩], []⟩ = true :=
  ⟨rfl, by decide, by decide, by decide⟩

/-- C8 amended: a version is enterprise exactly when its major component is at or above
`2000` and it is not `2000.0.0` with a pre-release tag; it is open source exactly when its
major component is below `2000` or it is `2000.0.0` with a pre-release tag. -/
theorem track_by_major_except_prerelease (v : semver.Version) :
    (isEnterprise v = true ↔
        (v.Major ≥ 2000 ∧ ¬ (v.Major = 2000 ∧ v.Minor = 0 ∧ v.Patch = 0 ∧ v.Pre ≠ []))) ∧
      (isOpenSource v = true ↔
        (v.Major < 2000 ∨ (v.Major = 2000 ∧ v.Minor = 0 ∧ v.Patch = 0 ∧ v.Pre ≠ []))) := by
  have hent : isEnterprise v = true ↔
      (v.Major ≥ 2000 ∧ ¬ (v.Major = 2000 ∧ v.Minor = 0 ∧ v.Patch = 0 ∧ v.Pre ≠ [])) := by
    simp only [isEnterprise, semver.Version.GTE, boundary_eq, semver.compare_release,
      decide_eq_true_eq]
    split_ifs <;> first | omega | simp_all
  refine ⟨hent, ?_⟩
  rw [isOpenSource_eq_not, Bool.not_eq_true', ← Bool.not_eq_true, hent]
  constructor
  · intro h
    by_cases hm : v.Major < 2000
    · exact Or.inl hm
    · right
      by_contra hc
      exact h ⟨by omega, hc⟩
  · rintro (h | h) ⟨h1, h2⟩
    · omega
    · exact h2 h

end scyllafeatures

/-! ## Thresholds -/

namespace scyllafeatures

/-- C9: for a registered feature, a version string that parses to exactly its open-source
threshold or exactly its enterprise threshold (as the same value, or as a version that
compares equal to it) makes `Supports` return `(true, nil)`; in particular `"5.2.0"` and
`"2023.1.0"` do for `ReplacingNodeUsingHostID`. -/
theorem supports_at_threshold :
    (∀ (sc : ScyllaCluster) (f : ScyllaFeature) (c : scyllaDBVersionMinimalConstraint)
        (v : semver.Version),
        featureMinimalVersionConstraints.lookup f = some c →
        semver.Parse sc.Spec.Version = .ok v →
        (v = c.openSource ∨ v = c.enterprise ∨
          v.Compare c.openSource = 0 ∨ v.Compare c.enterprise = 0) →
        Supports sc f = (true, none)) ∧
      Supports ⟨⟨"5.2.0"⟩⟩ ReplacingNodeUsingHostID = (true, none) ∧
      Supports ⟨⟨"2023.1.0"⟩⟩ ReplacingNodeUsingHostID = (true, none) := by
  refine ⟨?_, rfl, rfl⟩
  intro sc f c v hf hp h
  rw [supports_of_parsed hf hp]
  obtain ⟨-, rfl⟩ := lookup_eq_some hf
  have hos : v.Compare ⟨5, 2, 0, [], []⟩ = 0 →
      (isOpenSource v && v.GTE ⟨5, 2, 0, [], []⟩) = true := by
    intro h0
    have hm : v.Major = 5 := by
      rw [semver.compare_release] at h0
      split_ifs at h0 <;> omega
    simp [isOpenSource, semver.Version.LT, semver.Version.GTE, boundary_eq, h0,
      semver.compare_release, hm]
  have hent : v.Compare ⟨2023, 1, 0, [], []⟩ = 0 →
      (isOpenSource v && v.GTE ⟨5, 2, 0, [], []⟩) = false ∧
        (isEnterprise v && v.GTE ⟨2023, 1, 0, [], []⟩) = true := by
    intro h0
    have hm : v.Major = 2023 := by
      rw [semver.compare_release] at h0
      split_ifs at h0 <;> omega
    simp [isOpenSource, isEnterprise, semver.Version.LT, semver.Version.GTE, boundary_eq, h0,
      semver.compare_release, hm]
  rcases h with h | h | h | h
  · subst h; rfl
  · subst h; rfl
  · simp [hos h]
  · simp [(hent h).1, (hent h).2]

theorem supports_at_threshold_witness :
    semver.Parse "5.2.0+build.7" = .ok ⟨5, 2, 0, [], ["build", "7"]⟩ ∧
      Supports ⟨⟨"5.2.0+build.7"⟩⟩ ReplacingNodeUsingHostID = (true, none) :=
  ⟨rfl, supports_at_threshold.1 ⟨⟨"5.2.0+build.7"⟩⟩ ReplacingNodeUsingHostID
    ⟨⟨5, 2, 0, [], []⟩, ⟨2023, 1, 0, [], []⟩⟩ ⟨5, 2, 0, [], ["build", "7"]⟩ rfl rfl
    (Or.inr (Or.inr (Or.inl (by decide))))⟩

/-- C10: a version string that parses to `v` with `2000.0.0 <= v < 2023.1.0` makes
`Supports` return `(false, nil)` for `ReplacingNodeUsingHostID`, although `v` is at or above
the open-source threshold `5.2.0`. -/
theorem supports_no_cross_track (sc : ScyllaCluster) (v : semver.Version)
    (hp : semver.Parse sc.Spec.Version = .ok v)
    (hge : v.Compare ⟨2000, 0, 0, [], []⟩ ≥ 0)
    (hlt : v.Compare ⟨2023, 1, 0, [], []⟩ = -1) :
    Supports sc ReplacingNodeUsingHostID = (false, none) ∧
      v.Compare ⟨5, 2, 0, [], []⟩ ≥ 0 := by
  have hf : featureMinimalVersionConstraints.lookup ReplacingNodeUsingHostID =
      some ⟨⟨5, 2, 0, [], []⟩, ⟨2023, 1, 0, [], []⟩⟩ := rfl
  have hent : isEnterprise v = true := by
    simp [isEnterprise, semver.Version.GTE, boundary_eq, hge]
  have hos : isOpenSource v = false := by
    rw [isOpenSource_eq_not, hent]; rfl
  refine ⟨?_, ?_⟩
  · rw [supports_of_parsed hf hp, hos, hent]
    simp [semver.Version.GTE, hlt]
  · have hm : v.Major ≥ 2000 := by
      rw [semver.compare_release] at hge
      split_ifs at hge <;> omega
    rw [semver.compare_release]
    split_ifs <;> omega

theorem supports_no_cross_track_witness :
    semver.Parse "2022.9.9" = .ok ⟨2022, 9, 9, [], []⟩ ∧
      Supports ⟨⟨"2022.9.9"⟩⟩ ReplacingNodeUsingHostID = (false, none) ∧
      (⟨2022, 9, 9, [], []⟩ : semver.Version).Compare ⟨5, 2, 0, [], []⟩ ≥ 0 :=
  ⟨rfl, supports_no_cross_track ⟨⟨"2022.9.9"⟩⟩ ⟨2022, 9, 9, [], []⟩ rfl (by decide) (by decide)⟩

end scyllafeatures

/-! ## The boundary, the table and monotonicity -/

namespace scyllafeatures

/-- Being at or above a release version, in terms of the fields. -/
theorem gte_release_iff (v : semver.Version) (M m p : Nat) (b : List String) :
    v.Compare ⟨M, m, p, [], b⟩ ≥ 0 ↔
      (v.Major > M ∨ (v.Major = M ∧ (v.Minor > m ∨ (v.Minor = m ∧
        (v.Patch > p ∨ (v.Patch = p ∧ v.Pre = []))))))  := by
  rw [semver.compare_release]
  split_ifs <;> first | omega | simp_all

/-- What `v <= w` under `Compare` gives on the fields: the three numbers are ordered
lexicographically, and when they agree a release is only below a release. -/
theorem compare_le_fields (v w : semver.Version) (h : v.Compare w ≤ 0) :
    v.Major < w.Major ∨ (v.Major = w.Major ∧ (v.Minor < w.Minor ∨ (v.Minor = w.Minor ∧
      (v.Patch < w.Patch ∨ (v.Patch = w.Patch ∧ (v.Pre = [] → w.Pre = [])))))) := by
  unfold semver.Version.Compare at h
  split_ifs at h with h1 h2 h3 h4 h5 h6 h7 h8 h9
  all_goals first
    | omega
    | (simp only [ne_eq, not_not] at *
       refine Or.inr ⟨‹_›, Or.inr ⟨‹_›, Or.inr ⟨‹_›, ?_⟩⟩⟩
       intro hv
       simp_all)

/-- C11: a version equal to the boundary constant is enterprise and not open source, and
`Supports` returns `(false, nil)` for `"2000.0.0"` and `ReplacingNodeUsingHostID`. -/
theorem supports_at_boundary :
    semver.Parse "2000.0.0" = .ok ⟨2000, 0, 0, [], []⟩ ∧
      isEnterprise ⟨2000, 0, 0, [], []⟩ = true ∧
      isOpenSource ⟨2000, 0, 0, [], []⟩ = false ∧
      isEnterprise scyllaEnterpriseMinimalVersion = true ∧
      isOpenSource scyllaEnterpriseMinimalVersion = false ∧
      Supports ⟨⟨"2000.0.0"⟩⟩ ReplacingNodeUsingHostID = (false, none) :=
  ⟨rfl, by decide, by decide, by decide, by decide, rfl⟩

end scyllafeatures

namespace scyllafeatures

/-- C15: for every registered feature the open-source threshold is below `2000.0.0` and the
enterprise threshold is at or above it, so each threshold is classified on its own track,
and each track has a version string that is supported and one that is not. -/
theorem table_wellFormed (f : ScyllaFeature) (c : scyllaDBVersionMinimalConstraint)
    (hf : featureMinimalVersionConstraints.lookup f = some c) :
    c.openSource.Compare scyllaEnterpriseMinimalVersion = -1 ∧
      c.enterprise.Compare scyllaEnterpriseMinimalVersion ≥ 0 ∧
      isOpenSource c.openSource = true ∧ isEnterprise c.openSource = false ∧
      isEnterprise c.enterprise = true ∧ isOpenSource c.enterprise = false ∧
      (∃ s v, semver.Parse s = .ok v ∧ isOpenSource v = true ∧
        Supports ⟨⟨s⟩⟩ f = (true, none)) ∧
      (∃ s v, semver.Parse s = .ok v ∧ isOpenSource v = true ∧
        Supports ⟨⟨s⟩⟩ f = (false, none)) ∧
      (∃ s v, semver.Parse s = .ok v ∧ isEnterprise v = true ∧
        Supports ⟨⟨s⟩⟩ f = (true, none)) ∧
      (∃ s v, semver.Parse s = .ok v ∧ isEnterprise v = true ∧
        Supports ⟨⟨s⟩⟩ f = (false, none)) := by
  obtain ⟨rfl, rfl⟩ := lookup_eq_some hf
  refine ⟨by decide, by decide, by decide, by decide, by decide, by decide, ?_, ?_, ?_, ?_⟩
  · exact ⟨"5.2.0", ⟨5, 2, 0, [], []⟩, rfl, by decide, rfl⟩
  · exact ⟨"5.1.9", ⟨5, 1, 9, [], []⟩, rfl, by decide, rfl⟩
  · exact ⟨"2023.1.0", ⟨2023, 1, 0, [], []⟩, rfl, by decide, rfl⟩
  · exact ⟨"2022.9.9", ⟨2022, 9, 9, [], []⟩, rfl, by decide, rfl⟩

theorem table_wellFormed_witness :
    (⟨5, 2, 0, [], []⟩ : semver.Version).Compare scyllaEnterpriseMinimalVersion = -1 ∧
      (⟨2023, 1, 0, [], []⟩ : semver.Version).Compare scyllaEnterpriseMinimalVersion ≥ 0 :=
  have h := table_wellFormed ReplacingNodeUsingHostID
    ⟨⟨5, 2, 0, [], []⟩, ⟨2023, 1, 0, [], []⟩⟩ rfl
  ⟨h.1, h.2.1⟩

/-- C16: for a registered feature and two version strings that parse to `v <= w` on the
same track (both below `2000.0.0` or both at or above it), if `Supports` returns
`(true, nil)` for the first it returns `(true, nil)` for the second. -/
theorem supports_monotone_within_track (scv scw : ScyllaCluster) (f : ScyllaFeature)
    (c : scyllaDBVersionMinimalConstraint) (v w : semver.Version)
    (hf : featureMinimalVersionConstraints.lookup f = some c)
    (hv : semver.Parse scv.Spec.Version = .ok v)
    (hw : semver.Parse scw.Spec.Version = .ok w)
    (hle : v.Compare w ≤ 0)
    (htrack : (v.Compare ⟨2000, 0, 0, [], []⟩ = -1 ∧ w.Compare ⟨2000, 0, 0, [], []⟩ = -1) ∨
      (v.Compare ⟨2000, 0, 0, [], []⟩ ≥ 0 ∧ w.Compare ⟨2000, 0, 0, [], []⟩ ≥ 0))
    (hs : Supports scv f = (true, none)) :
    Supports scw f = (true, none) := by
  obtain ⟨-, rfl⟩ := lookup_eq_some hf
  rw [supports_of_parsed hf hv] at hs
  rw [supports_of_parsed hf hw]
  have hfields := compare_le_fields v w hle
  have mono : ∀ M m p : Nat, v.Compare ⟨M, m, p, [], []⟩ ≥ 0 → w.Compare ⟨M, m, p, [], []⟩ ≥ 0 := by
    intro M m p hge
    rw [gte_release_iff] at hge ⊢
    rcases hfields with h | ⟨h1, h | ⟨h2, h | ⟨h3, h4⟩⟩⟩ <;>
      rcases hge with g | ⟨g1, g | ⟨g2, g | ⟨g3, g4⟩⟩⟩ <;>
      first
        | (left; omega)
        | (right; refine ⟨by omega, ?_⟩; left; omega)
        | (right; refine ⟨by omega, ?_⟩; right; refine ⟨by omega, ?_⟩; left; omega)
        | (right; refine ⟨by omega, ?_⟩; right; refine ⟨by omega, ?_⟩; right;
           exact ⟨by omega, h4 g4⟩)
  rcases htrack with ⟨tv, tw⟩ | ⟨tv, tw⟩
  · have hvo : isOpenSource v = true := by
      simp [isOpenSource, semver.Version.LT, boundary_eq, tv]
    have hve : isEnterprise v = false := by
      simp [isEnterprise, semver.Version.GTE, boundary_eq, tv]
    have hwo : isOpenSource w = true := by
      simp [isOpenSource, semver.Version.LT, boundary_eq, tw]
    rw [hvo, hve] at hs
    rw [hwo]
    have hge : v.Compare ⟨5, 2, 0, [], []⟩ ≥ 0 := by
      by_contra hn
      simp [semver.Version.GTE, hn] at hs
    simp [semver.Version.GTE, mono 5 2 0 hge]
  · have hve : isEnterprise v = true := by
      simp [isEnterprise, semver.Version.GTE, boundary_eq, tv]
    have hvo : isOpenSource v = false := by
      rw [isOpenSource_eq_not, hve]; rfl
    have hwe : isEnterprise w = true := by
      simp [isEnterprise, semver.Version.GTE, boundary_eq, tw]
    have hwo : isOpenSource w = false := by
      rw [isOpenSource_eq_not, hwe]; rfl
    rw [hvo, hve] at hs
    rw [hwo, hwe]
    have hge : v.Compare ⟨2023, 1, 0, [], []⟩ ≥ 0 := by
      by_contra hn
      simp [semver.Version.GTE, hn] at hs
    simp [semver.Version.GTE, mono 2023 1 0 hge]

theorem supports_monotone_within_track_witness :
    Supports ⟨⟨"5.2.0"⟩⟩ ReplacingNodeUsingHostID = (true, none) ∧
      Supports ⟨⟨"2000.0.0-rc.1"⟩⟩ ReplacingNodeUsingHostID = (true, none) :=
  ⟨rfl, supports_monotone_within_track ⟨⟨"5.2.0"⟩⟩ ⟨⟨"2000.0.0-rc.1"⟩⟩
    ReplacingNodeUsingHostID ⟨⟨5, 2, 0, [], []⟩, ⟨2023, 1, 0, [], []⟩⟩
    ⟨5, 2, 0, [], []⟩ ⟨2000, 0, 0, [⟨"rc", 0, false⟩, ⟨"", 1, true⟩], []⟩
    rfl rfl rfl (by decide) (Or.inl ⟨by decide, by decide⟩) rfl⟩

/-- C17: `Supports` is not monotone across the track boundary: `1999.0.0` is below
`2000.0.0` and supported while `2000.0.0` is not; for a version string that parses to `v`,
`Supports` returns `(true, nil)` for `ReplacingNodeUsingHostID` exactly when
`5.2.0 <= v < 2000.0.0` or `v >= 2023.1.0`, and `(false, nil)` otherwise. -/
theorem supports_not_monotone_across :
    (semver.Parse "1999.0.0" = .ok ⟨1999, 0, 0, [], []⟩ ∧
      semver.Parse "2000.0.0" = .ok ⟨2000, 0, 0, [], []⟩ ∧
      (⟨1999, 0, 0, [], []⟩ : semver.Version).Compare ⟨2000, 0, 0, [], []⟩ = -1 ∧
      Supports ⟨⟨"1999.0.0"⟩⟩ ReplacingNodeUsingHostID = (true, none) ∧
      Supports ⟨⟨"2000.0.0"⟩⟩ ReplacingNodeUsingHostID = (false, none)) ∧
      ∀ (sc : ScyllaCluster) (v : semver.Version),
        semver.Parse sc.Spec.Version = .ok v →
        ((Supports sc ReplacingNodeUsingHostID = (true, none) ↔
          ((v.Compare ⟨5, 2, 0, [], []⟩ ≥ 0 ∧ v.Compare ⟨2000, 0, 0, [], []⟩ = -1) ∨
            v.Compare ⟨2023, 1, 0, [], []⟩ ≥ 0)) ∧
          (Supports sc ReplacingNodeUsingHostID = (true, none) ∨
            Supports sc ReplacingNodeUsingHostID = (false, none))) := by
  refine ⟨⟨rfl, rfl, by decide, rfl, rfl⟩, ?_⟩
  intro sc v hp
  have hf : featureMinimalVersionConstraints.lookup ReplacingNodeUsingHostID =
      some ⟨⟨5, 2, 0, [], []⟩, ⟨2023, 1, 0, [], []⟩⟩ := rfl
  rw [supports_of_parsed hf hp]
  have hent : v.Compare ⟨2023, 1, 0, [], []⟩ ≥ 0 → v.Compare ⟨2000, 0, 0, [], []⟩ ≥ 0 := by
    intro h
    rw [gte_release_iff] at h ⊢
    omega
  rcases semver.compare_cases v ⟨2000, 0, 0, [], []⟩ with hb | hb | hb
  · have hos : isOpenSource v = true := by
      simp [isOpenSource, semver.Version.LT, boundary_eq, hb]
    have hen : isEnterprise v = false := by
      simp [isEnterprise, semver.Version.GTE, boundary_eq, hb]
    have hno : ¬ v.Compare ⟨2023, 1, 0, [], []⟩ ≥ 0 := fun h => by
      have := hent h
      omega
    rw [hos, hen]
    by_cases h5 : v.Compare ⟨5, 2, 0, [], []⟩ ≥ 0
    · simp [semver.Version.GTE, h5, hb]
    · simp [semver.Version.GTE, h5, hno]
  all_goals
    have hos : isOpenSource v = false := by
      simp [isOpenSource, semver.Version.LT, boundary_eq, hb]
    have hen : isEnterprise v = true := by
      simp [isEnterprise, semver.Version.GTE, boundary_eq, hb]
    rw [hos, hen]
    by_cases h23 : v.Compare ⟨2023, 1, 0, [], []⟩ ≥ 0
    · simp [semver.Version.GTE, h23]
    · simp [semver.Version.GTE, h23, hb]

theorem supports_not_monotone_across_witness :
    (Supports ⟨⟨"2024.1.3"⟩⟩ ReplacingNodeUsingHostID = (true, none) ↔
      (((⟨2024, 1, 3, [], []⟩ : semver.Version).Compare ⟨5, 2, 0, [], []⟩ ≥ 0 ∧
          (⟨2024, 1, 3, [], []⟩ : semver.Version).Compare ⟨2000, 0, 0, [], []⟩ = -1) ∨
        (⟨2024, 1, 3, [], []⟩ : semver.Version).Compare ⟨2023, 1, 0, [], []⟩ ≥ 0)) :=
  (supports_not_monotone_across.2 ⟨⟨"2024.1.3"⟩⟩ ⟨2024, 1, 3, [], []⟩ rfl).1

end scyllafeatures

/-! ## Strings the parser rejects or accepts -/

namespace strings

/-- When the separator does not occur, `cut` finds nothing. -/
theorem cut_eq_none_of_count (sep : Char) (s : List Char) (h : s.count sep = 0) :
    cut sep s = none := by
  induction s with
  | nil => rfl
  | cons c cs ih =>
    have hc : c ≠ sep := by
      intro hc
      subst hc
      simp at h
    have h2 : cs.count sep = 0 := by
      rw [List.count_cons] at h
      omega
    simp [cut, hc, ih h2]

/-- A successful `cut` removes exactly one occurrence of the separator from what is left
to split. -/
theorem count_of_cut (sep : Char) (s a b : List Char) (h : cut sep s = some (a, b)) :
    s.count sep = b.count sep + 1 := by
  induction s generalizing a with
  | nil => simp [cut] at h
  | cons c cs ih =>
    by_cases hc : c = sep
    · subst hc
      simp [cut] at h
      simp [h.2]
    · simp only [cut, hc, if_false] at h
      cases hcut : cut sep cs with
      | none => simp [hcut] at h
      | some p =>
        obtain ⟨a2, b2⟩ := p
        simp [hcut] at h
        obtain ⟨-, rfl⟩ := h
        rw [List.count_cons_of_ne (Ne.symm hc), ih a2 hcut]

/-- A string with fewer than two separators splits into fewer than three parts. -/
theorem splitN_three_length (sep : Char) (s : List Char) (h : s.count sep < 2) :
    (SplitN sep 3 s).length < 3 := by
  cases h1 : cut sep s with
  | none => simp [SplitN, h1]
  | some p =>
    obtain ⟨a, b⟩ := p
    have hb : b.count sep = 0 := by
      have := count_of_cut sep s a b h1
      omega
    simp [SplitN, h1, cut_eq_none_of_count sep b hb]

end strings

namespace semver

/-- A version string with fewer than two dots does not parse. -/
theorem parse_few_dots (s : String) (h : s.toList.count '.' < 2) :
    Parse s = .error .versionStringEmpty ∨ Parse s = .error .noMajorMinorPatch := by
  unfold Parse
  split_ifs
  · exact Or.inl rfl
  · right
    have hlen := strings.splitN_three_length '.' s.toList h
    split
    · rename_i heq
      rw [heq] at hlen
      simp at hlen
    · rfl

end semver

namespace scyllafeatures

/-- C13: for a version string with fewer than two `.` characters and a registered feature,
`Supports` returns `false` with the InvalidVersion error, whose cause is that the string is
empty or has no major.minor.patch elements. -/
theorem supports_few_dots (sc : ScyllaCluster) (f : ScyllaFeature)
    (c : scyllaDBVersionMinimalConstraint)
    (hf : featureMinimalVersionConstraints.lookup f = some c)
    (h : sc.Spec.Version.toList.count '.' < 2) :
    ∃ e, semver.Parse sc.Spec.Version = .error e ∧
      (e = .versionStringEmpty ∨ e = .noMajorMinorPatch) ∧
      Supports sc f = (false, some (.InvalidVersion sc.Spec.Version e)) := by
  rcases semver.parse_few_dots sc.Spec.Version h with hp | hp
  · exact ⟨_, hp, Or.inl rfl, by simp only [Supports, hf, hp]⟩
  · exact ⟨_, hp, Or.inr rfl, by simp only [Supports, hf, hp]⟩

theorem supports_few_dots_witness :
    ∃ e, semver.Parse "5.2" = .error e ∧
      (e = .versionStringEmpty ∨ e = .noMajorMinorPatch) ∧
      Supports ⟨⟨"5.2"⟩⟩ ReplacingNodeUsingHostID = (false, some (.InvalidVersion "5.2" e)) :=
  supports_few_dots ⟨⟨"5.2"⟩⟩ ReplacingNodeUsingHostID
    ⟨⟨5, 2, 0, [], []⟩, ⟨2023, 1, 0, [], []⟩⟩ rfl (by decide)

end scyllafeatures

namespace strings

/-- The result of `Split` is never empty. -/
theorem split_ne_nil (sep : Char) (s : List Char) : Split sep s ≠ [] := by
  induction s with
  | nil => simp [Split]
  | cons c cs ih =>
    simp only [Split]
    split_ifs
    · simp
    · cases h : Split sep cs <;> simp

/-- A character that occurs in none of the parts of `Split` does not occur in the
string, unless it is the separator. -/
theorem not_mem_of_split (sep x : Char) (hx : x ≠ sep) (s : List Char)
    (h : ∀ part ∈ Split sep s, x ∉ part) : x ∉ s := by
  induction s with
  | nil => simp
  | cons c cs ih =>
    simp only [Split] at h
    by_cases hc : c = sep
    · simp only [hc, if_true, List.mem_cons, forall_eq_or_imp] at h
      subst hc
      simp only [List.mem_cons, not_or]
      exact ⟨hx, ih h.2⟩
    · simp only [hc, if_false] at h
      cases hs : Split sep cs with
      | nil => exact absurd hs (split_ne_nil sep cs)
      | cons p ps =>
        rw [hs] at h ih
        simp only [List.mem_cons, forall_eq_or_imp, not_or] at h ih
        simp only [List.mem_cons, not_or]
        exact ⟨h.1.1, ih ⟨h.1.2, h.2⟩⟩

end strings

namespace semver

/-- A valid pre-release identifier has no `+` in it. -/
theorem newPRVersion_no_plus (s : List Char) (pr : PRVersion)
    (h : NewPRVersion s = .ok pr) : '+' ∉ s := by
  intro hmem
  unfold NewPRVersion at h
  have hnum : containsOnly s numbers = false := by
    simp only [containsOnly, List.all_eq_false]
    exact ⟨'+', hmem, by decide⟩
  have halpha : containsOnly s alphanum = false := by
    simp only [containsOnly, List.all_eq_false]
    exact ⟨'+', hmem, by decide⟩
  simp [hnum, halpha] at h
  split_ifs at h

/-- When all pre-release identifiers are valid, none has a `+` in it and there are as
many parsed identifiers as there were parts. -/
theorem parsePrerelease_ok (l : List (List Char)) (pre : List PRVersion)
    (h : parsePrerelease l = .ok pre) :
    (∀ part ∈ l, '+' ∉ part) ∧ pre.length = l.length := by
  induction l generalizing pre with
  | nil =>
    simp only [parsePrerelease, Except.ok.injEq] at h
    subst h
    simp
  | cons x xs ih =>
    simp only [parsePrerelease] at h
    cases h1 : NewPRVersion x with
    | error e => simp [h1] at h
    | ok pr =>
      cases h2 : parsePrerelease xs with
      | error e => simp [h1, h2] at h
      | ok prs =>
        simp only [h1, h2, Except.ok.injEq] at h
        subst h
        have := ih prs h2
        refine ⟨?_, by simp [this.2]⟩
        intro part hpart
        rcases List.mem_cons.mp hpart with rfl | hm
        · exact newPRVersion_no_plus _ pr h1
        · exact this.1 part hm

/-- A valid pre-release tag has no `+` in it and yields at least one identifier. -/
theorem prerelease_tag_ok (p : List Char) (pre : List PRVersion)
    (h : parsePrerelease (strings.Split '.' p) = .ok pre) :
    strings.cut '+' p = none ∧ pre ≠ [] := by
  have hok := parsePrerelease_ok _ pre h
  constructor
  · apply strings.cut_eq_none_of_count
    rw [List.count_eq_zero]
    exact strings.not_mem_of_split '.' '+' (by decide) p hok.1
  · intro hnil
    have hlen := hok.2
    rw [hnil] at hlen
    have := strings.split_ne_nil '.' p
    cases hs : strings.Split '.' p with
    | nil => exact this hs
    | cons a b => rw [hs] at hlen; simp at hlen

end semver

namespace semver

/-- The open-source threshold followed by a valid pre-release tag parses, to the threshold's
numbers with the tag's identifiers. -/
theorem parse_openSource_prerelease (p : String) (pre : List PRVersion)
    (h : parsePrerelease (strings.Split '.' p.toList) = .ok pre) :
    Parse ("5.2.0-" ++ p) = .ok ⟨5, 2, 0, pre, []⟩ := by
  have hcut : strings.cut '+' p.data = none := (prerelease_tag_ok p.toList pre h).1
  have hd : parsePrerelease (strings.Split '.' p.data) = .ok pre := h
  have hl : ("5.2.0-" ++ p).toList = '5' :: '.' :: '2' :: '.' :: '0' :: '-' :: p.toList := by
    simp
  have h5 : parseNumber .invalidMajor .leadingZeroesMajor ['5'] = .ok 5 := rfl
  have h2 : parseNumber .invalidMinor .leadingZeroesMinor ['2'] = .ok 2 := rfl
  have h0 : parseNumber .invalidPatch .leadingZeroesPatch ['0'] = .ok 0 := rfl
  unfold Parse
  rw [hl]
  simp [strings.SplitN, strings.cut, hcut, h5, h2, h0, hd, parseBuild]

/-- The enterprise threshold followed by a valid pre-release tag parses, to the threshold's
numbers with the tag's identifiers. -/
theorem parse_enterprise_prerelease (p : String) (pre : List PRVersion)
    (h : parsePrerelease (strings.Split '.' p.toList) = .ok pre) :
    Parse ("2023.1.0-" ++ p) = .ok ⟨2023, 1, 0, pre, []⟩ := by
  have hcut : strings.cut '+' p.data = none := (prerelease_tag_ok p.toList pre h).1
  have hd : parsePrerelease (strings.Split '.' p.data) = .ok pre := h
  have hl : ("2023.1.0-" ++ p).toList =
      '2' :: '0' :: '2' :: '3' :: '.' :: '1' :: '.' :: '0' :: '-' :: p.toList := by
    simp
  have h5 : parseNumber .invalidMajor .leadingZeroesMajor ['2', '0', '2', '3'] = .ok 2023 := rfl
  have h2 : parseNumber .invalidMinor .leadingZeroesMinor ['1'] = .ok 1 := rfl
  have h0 : parseNumber .invalidPatch .leadingZeroesPatch ['0'] = .ok 0 := rfl
  unfold Parse
  rw [hl]
  simp [strings.SplitN, strings.cut, hcut, h5, h2, h0, hd, parseBuild]

end semver

namespace scyllafeatures

/-- For a pre-release tag `p` whose identifiers the parser accepts, `"5.2.0-p"` and
`"2023.1.0-p"` parse, compare strictly below their thresholds, and `Supports` returns
`(false, nil)` for both. -/
theorem supports_accepted_prerelease (p : String) (pre : List semver.PRVersion)
    (h : semver.parsePrerelease (strings.Split '.' p.toList) = .ok pre) :
    p ≠ "" ∧
      semver.Parse ("5.2.0-" ++ p) = .ok ⟨5, 2, 0, pre, []⟩ ∧
      (⟨5, 2, 0, pre, []⟩ : semver.Version).Compare ⟨5, 2, 0, [], []⟩ = -1 ∧
      Supports ⟨⟨"5.2.0-" ++ p⟩⟩ ReplacingNodeUsingHostID = (false, none) ∧
      semver.Parse ("2023.1.0-" ++ p) = .ok ⟨2023, 1, 0, pre, []⟩ ∧
      (⟨2023, 1, 0, pre, []⟩ : semver.Version).Compare ⟨2023, 1, 0, [], []⟩ = -1 ∧
      Supports ⟨⟨"2023.1.0-" ++ p⟩⟩ ReplacingNodeUsingHostID = (false, none) := by
  have hpre := (semver.prerelease_tag_ok p.toList pre h).2
  have hf : featureMinimalVersionConstraints.lookup ReplacingNodeUsingHostID =
      some ⟨⟨5, 2, 0, [], []⟩, ⟨2023, 1, 0, [], []⟩⟩ := rfl
  have hos := semver.parse_openSource_prerelease p pre h
  have hent := semver.parse_enterprise_prerelease p pre h
  have c1 : (⟨5, 2, 0, pre, []⟩ : semver.Version).Compare ⟨5, 2, 0, [], []⟩ = -1 := by
    simp [semver.compare_release, hpre]
  have c2 : (⟨2023, 1, 0, pre, []⟩ : semver.Version).Compare ⟨2023, 1, 0, [], []⟩ = -1 := by
    simp [semver.compare_release, hpre]
  refine ⟨?_, hos, c1, ?_, hent, c2, ?_⟩
  · rintro rfl
    have : semver.parsePrerelease (strings.Split '.' "".toList) = .error .prereleaseEmpty := rfl
    rw [this] at h
    cases h
  · rw [@supports_of_parsed ⟨⟨"5.2.0-" ++ p⟩⟩ _ _ _ hf hos]
    simp [isOpenSource, isEnterprise, semver.Version.LT, semver.Version.GTE, boundary_eq,
      semver.compare_release, hpre]
  · rw [@supports_of_parsed ⟨⟨"2023.1.0-" ++ p⟩⟩ _ _ _ hf hent]
    simp [isOpenSource, isEnterprise, semver.Version.LT, semver.Version.GTE, boundary_eq,
      semver.compare_release, hpre]

end scyllafeatures

/-! ## Valid pre-release tags and what the parser accepts -/

namespace strings

/-- The parts `Split` returns are the parts of the string between the separators. -/
theorem split_eq_splitOn (sep : Char) (s : List Char) : Split sep s = s.splitOn sep := by
  induction s with
  | nil => rfl
  | cons c cs ih =>
    have hne := split_ne_nil sep cs
    simp only [Split, List.splitOn, List.splitOnP_cons, beq_iff_eq]
    rw [show List.splitOnP (fun x => x == sep) cs = Split sep cs from ih.symm]
    split_ifs
    · rfl
    · cases h : Split sep cs with
      | nil => exact absurd h hne
      | cons a b => rfl

end strings

namespace semver

/-- The parser accepts every valid identifier whose value, when it is numeric, fits 64
bits. -/
theorem newPRVersion_of_valid (s : List Char)
    (hv : semverSpec.validIdentifier s = true)
    (hfit : semverSpec.isNumeric s = true → semverSpec.decimalValue s < 2 ^ 64) :
    ∃ pr, NewPRVersion s = .ok pr := by
  simp only [semverSpec.validIdentifier, Bool.and_eq_true, Bool.or_eq_true,
    Bool.not_eq_true', List.isEmpty_eq_false, beq_iff_eq, bne_iff_ne, ne_eq] at hv
  obtain ⟨⟨hne, hchars⟩, hzero⟩ := hv
  have hnum : containsOnly s numbers = semverSpec.isNumeric s := by
    simp only [containsOnly, semverSpec.isNumeric]
    congr 1
    funext r
    rw [List.elem_eq_mem]
    rfl
  have halpha : containsOnly s alphanum = true := by
    simp only [containsOnly, List.all_eq_true]
    intro c hc
    have hmem : c ∈ semverSpec.identifierChars := by
      simpa using (List.all_eq_true.mp hchars) c hc
    have hall : semverSpec.identifierChars.all (fun r => alphanum.toList.elem r) = true := by
      decide
    exact (List.all_eq_true.mp hall) c hmem
  have hlen : s.length ≠ 0 := by
    intro h0
    exact hne (List.length_eq_zero.mp h0)
  unfold NewPRVersion
  rw [if_neg hlen, hnum]
  cases hn : semverSpec.isNumeric s with
  | false => simp [halpha]
  | true =>
    have hlead : hasLeadingZeroes s = false := by
      rcases hzero with (h | h) | h
      · rw [hn] at h; cases h
      · simp [hasLeadingZeroes, h]
      · cases s with
        | nil => exact absurd rfl hne
        | cons a t =>
          have : a ≠ '0' := by simpa using h
          simp [hasLeadingZeroes, this]
    have hdig : (s.all fun c => c.isDigit) = true := by
      simp only [List.all_eq_true]
      intro c hc
      have hmem : c ∈ semverSpec.digits := by
        simpa [semverSpec.isNumeric] using (List.all_eq_true.mp hn) c hc
      have hall : semverSpec.digits.all (fun r => r.isDigit) = true := by decide
      exact (List.all_eq_true.mp hall) c hmem
    have hval : ¬ 2 ^ 64 ≤ s.foldl (fun acc c => acc * 10 + (c.toNat - 48)) 0 :=
      Nat.not_le.mpr (hfit hn)
    have hparse : strconv.ParseUint s =
        .ok (s.foldl (fun acc c => acc * 10 + (c.toNat - 48)) 0) := by
      simp only [strconv.ParseUint, hne, hdig, if_false, Bool.not_true, Bool.false_eq_true,
        if_neg hval]
    simp [hlead, hparse]

/-- The parser accepts every series of valid identifiers whose numeric ones fit 64 bits. -/
theorem parsePrerelease_of_valid (l : List (List Char))
    (hv : l.all semverSpec.validIdentifier = true)
    (hfit : (l.all fun s =>
      !semverSpec.isNumeric s || decide (semverSpec.decimalValue s < 2 ^ 64)) = true) :
    ∃ pre, parsePrerelease l = .ok pre := by
  induction l with
  | nil => exact ⟨[], rfl⟩
  | cons x xs ih =>
    simp only [List.all_cons, Bool.and_eq_true] at hv hfit
    obtain ⟨pr, hpr⟩ := newPRVersion_of_valid x hv.1 (by
      intro hn
      simpa [hn] using hfit.1)
    obtain ⟨prs, hprs⟩ := ih hv.2 hfit.2
    exact ⟨pr :: prs, by simp only [parsePrerelease, hpr, hprs]⟩

end semver

namespace scyllafeatures

/-- C14 as stated fails: `18446744073709551616` is a non-empty valid pre-release tag (one
numeric identifier without leading zero), but it does not fit 64 bits, so `"5.2.0-p"` and
`"2023.1.0-p"` do not parse and `Supports` returns the InvalidVersion error, not
`(false, nil)`. -/
theorem supports_prerelease_counterexample :
    semverSpec.validPrereleaseTag "18446744073709551616" = true ∧
      Supports ⟨⟨"5.2.0-18446744073709551616"⟩⟩ ReplacingNodeUsingHostID =
        (false, some (.InvalidVersion "5.2.0-18446744073709551616"
          (.numError "18446744073709551616" .ErrRange))) ∧
      Supports ⟨⟨"2023.1.0-18446744073709551616"⟩⟩ ReplacingNodeUsingHostID =
        (false, some (.InvalidVersion "2023.1.0-18446744073709551616"
          (.numError "18446744073709551616" .ErrRange))) ∧
      Supports ⟨⟨"5.2.0-18446744073709551616"⟩⟩ ReplacingNodeUsingHostID ≠ (false, none) ∧
      Supports ⟨⟨"2023.1.0-18446744073709551616"⟩⟩ ReplacingNodeUsingHostID ≠ (false, none) :=
  ⟨by decide, rfl, rfl, by decide, by decide⟩

/-- C14 amended: for every valid pre-release tag `p` (such a tag is never empty) whose
numeric identifiers are below `2 ^ 64`, `"5.2.0-p"` and `"2023.1.0-p"` parse to versions
that compare strictly below `5.2.0` and `2023.1.0`, and `Supports` returns `(false, nil)`
for both with `ReplacingNodeUsingHostID`. -/
theorem supports_prerelease_of_threshold (p : String)
    (hv : semverSpec.validPrereleaseTag p = true)
    (hfit : semverSpec.numericIdentifiersFit p = true) :
    p ≠ "" ∧
      ∃ pre : List semver.PRVersion, pre ≠ [] ∧
        semver.Parse ("5.2.0-" ++ p) = .ok ⟨5, 2, 0, pre, []⟩ ∧
        (⟨5, 2, 0, pre, []⟩ : semver.Version).Compare ⟨5, 2, 0, [], []⟩ = -1 ∧
        Supports ⟨⟨"5.2.0-" ++ p⟩⟩ ReplacingNodeUsingHostID = (false, none) ∧
        semver.Parse ("2023.1.0-" ++ p) = .ok ⟨2023, 1, 0, pre, []⟩ ∧
        (⟨2023, 1, 0, pre, []⟩ : semver.Version).Compare ⟨2023, 1, 0, [], []⟩ = -1 ∧
        Supports ⟨⟨"2023.1.0-" ++ p⟩⟩ ReplacingNodeUsingHostID = (false, none) := by
  have hsplit := strings.split_eq_splitOn '.' p.toList
  obtain ⟨pre, hpre⟩ := semver.parsePrerelease_of_valid (strings.Split '.' p.toList)
    (by rw [hsplit]; exact hv) (by rw [hsplit]; exact hfit)
  have h := supports_accepted_prerelease p pre hpre
  exact ⟨h.1, pre, (semver.prerelease_tag_ok p.toList pre hpre).2, h.2⟩

theorem supports_prerelease_of_threshold_witness :
    semverSpec.validPrereleaseTag "rc.1" = true ∧
      semverSpec.numericIdentifiersFit "rc.1" = true ∧
      Supports ⟨⟨"5.2.0-" ++ "rc.1"⟩⟩ ReplacingNodeUsingHostID = (false, none) ∧
      Supports ⟨⟨"2023.1.0-" ++ "rc.1"⟩⟩ ReplacingNodeUsingHostID = (false, none) := by
  obtain ⟨-, pre, -, -, -, h1, -, -, h2⟩ :=
    supports_prerelease_of_threshold "rc.1" (by decide) (by decide)
  exact ⟨by decide, by decide, h1, h2⟩

end scyllafeatures

/-! ## Error payloads -/

namespace strconv

/-- A string of printable characters without quote and backslash is quoted as itself
between two double quotes. -/
theorem quote_plain (table : Char → Bool) (s : String)
    (h : ∀ c ∈ s.toList, c ≠ quoteChar ∧ c ≠ backslash ∧ IsPrint table c = true) :
    (Quote table s).toList = quoteChar :: s.toList ++ [quoteChar] := by
  have hflat : ∀ l : List Char,
      (∀ c ∈ l, c ≠ quoteChar ∧ c ≠ backslash ∧ IsPrint table c = true) →
      (l.map (appendEscapedRune table)).flatten = l := by
    intro l
    induction l with
    | nil => intro _; rfl
    | cons c cs ih =>
      intro hl
      have hc := hl c (List.mem_cons_self c cs)
      have hcs := ih fun x hx => hl x (List.mem_cons_of_mem c hx)
      simp [appendEscapedRune, hc.1, hc.2.1, hc.2.2, hcs]
  show quoteChar :: (s.toList.map (appendEscapedRune table)).flatten ++ [quoteChar] = _
  rw [hflat s.toList h]

/-- The quoted form of a plain string contains the string. -/
theorem infix_quote_plain (table : Char → Bool) (s : String)
    (h : ∀ c ∈ s.toList, c ≠ quoteChar ∧ c ≠ backslash ∧ IsPrint table c = true) :
    s.toList <:+: (Quote table s).toList := by
  rw [quote_plain table s h]
  exact ⟨[quoteChar], [quoteChar], by simp⟩

end strconv

namespace scyllafeatures

/-- The message of the UnknownFeature error ends with the quoted feature identifier. -/
theorem unknownFeature_message (table : Char → Bool) (f : ScyllaFeature) :
    (strconv.Quote table f).toList <:+: ((SupportsError.UnknownFeature f).Error table).toList := by
  refine ⟨"unable to find minimal version constraints, unknown feature ".toList, [], ?_⟩
  simp [SupportsError.Error]

/-- The message of the InvalidVersion error has the quoted version string in it and ends
with the message of the parse failure. -/
theorem invalidVersion_message (table : Char → Bool) (version : String) (e : semver.Error) :
    (strconv.Quote table version).toList <:+:
        ((SupportsError.InvalidVersion version e).Error table).toList ∧
      (e.Error table).toList <:+:
        ((SupportsError.InvalidVersion version e).Error table).toList := by
  constructor
  · refine ⟨"can't parse ScyllaCluster version ".toList, ": ".toList ++ (e.Error table).toList, ?_⟩
    simp [SupportsError.Error]
  · refine ⟨"can't parse ScyllaCluster version ".toList ++ (strconv.Quote table version).toList ++
      ": ".toList, [], ?_⟩
    simp [SupportsError.Error]

end scyllafeatures

set_option maxRecDepth 8000

namespace scyllafeatures

/-- C12 as stated fails: the verb `%q` escapes a double quote, so for the unknown feature
`a"b` the message of the returned error has `"a\"b"` in it and does not contain the
identifier `a"b`; likewise for the version string `5.2"`, which does not parse, the message
does not contain the version string. -/
theorem error_message_contains_counterexample :
    Supports ⟨⟨"5.2.0"⟩⟩ (String.mk ['a', Char.ofNat 34, 'b']) =
        (false, some (.UnknownFeature (String.mk ['a', Char.ofNat 34, 'b']))) ∧
      (∀ table : Char → Bool,
        ¬ (['a', Char.ofNat 34, 'b'] <:+:
          ((SupportsError.UnknownFeature (String.mk ['a', Char.ofNat 34, 'b'])).Error
            table).toList)) ∧
      Supports ⟨⟨String.mk ['5', '.', '2', Char.ofNat 34]⟩⟩ ReplacingNodeUsingHostID =
        (false, some (.InvalidVersion (String.mk ['5', '.', '2', Char.ofNat 34])
          .noMajorMinorPatch)) ∧
      (∀ table : Char → Bool,
        ¬ (['5', '.', '2', Char.ofNat 34] <:+:
          ((SupportsError.InvalidVersion (String.mk ['5', '.', '2', Char.ofNat 34])
            .noMajorMinorPatch).Error table).toList)) := by
  refine ⟨rfl, ?_, rfl, ?_⟩
  · intro table
    have hmsg : ((SupportsError.UnknownFeature (String.mk ['a', Char.ofNat 34, 'b'])).Error
        table).toList =
        "unable to find minimal version constraints, unknown feature ".toList ++
          [Char.ofNat 34, 'a', Char.ofNat 92, Char.ofNat 34, 'b', Char.ofNat 34] := rfl
    rw [hmsg]
    decide
  · intro table
    have hmsg : ((SupportsError.InvalidVersion (String.mk ['5', '.', '2', Char.ofNat 34])
        .noMajorMinorPatch).Error table).toList =
        "can't parse ScyllaCluster version ".toList ++
          [Char.ofNat 34, '5', '.', '2', Char.ofNat 92, Char.ofNat 34, Char.ofNat 34] ++
          ": No Major.Minor.Patch elements found".toList := rfl
    rw [hmsg]
    decide

/-- C12 amended: when the feature is unknown the message of the returned error contains the
feature identifier as `%q` prints it (quoted by `strconv.Quote`), which contains the
identifier itself when it consists of printable characters other than the double quote and
the backslash; when the version string fails to parse, the message contains the version
string as `%q` prints it (and the string itself under the same condition) and the message of
the parse failure, and the error unwraps to that parse failure. -/
theorem error_payloads (table : Char → Bool) (sc : ScyllaCluster) (f : ScyllaFeature) :
    (featureMinimalVersionConstraints.lookup f = none →
      ∃ err, (Supports sc f).2 = some err ∧
        (strconv.Quote table f).toList <:+: (err.Error table).toList ∧
        ((∀ c ∈ f.toList, c ≠ strconv.quoteChar ∧ c ≠ strconv.backslash ∧
            strconv.IsPrint table c = true) →
          f.toList <:+: (err.Error table).toList)) ∧
      (∀ c e, featureMinimalVersionConstraints.lookup f = some c →
        semver.Parse sc.Spec.Version = .error e →
        ∃ err, (Supports sc f).2 = some err ∧
          err.Unwrap = some e ∧
          (e.Error table).toList <:+: (err.Error table).toList ∧
          (strconv.Quote table sc.Spec.Version).toList <:+: (err.Error table).toList ∧
          ((∀ c ∈ sc.Spec.Version.toList, c ≠ strconv.quoteChar ∧ c ≠ strconv.backslash ∧
              strconv.IsPrint table c = true) →
            sc.Spec.Version.toList <:+: (err.Error table).toList)) := by
  constructor
  · intro hf
    refine ⟨.UnknownFeature f, by simp only [Supports, hf], unknownFeature_message table f, ?_⟩
    intro hplain
    exact List.IsInfix.trans (strconv.infix_quote_plain table f hplain)
      (unknownFeature_message table f)
  · intro c e hf hp
    have hmsg := invalidVersion_message table sc.Spec.Version e
    refine ⟨.InvalidVersion sc.Spec.Version e, by simp only [Supports, hf, hp], rfl,
      hmsg.2, hmsg.1, ?_⟩
    intro hplain
    exact List.IsInfix.trans (strconv.infix_quote_plain table sc.Spec.Version hplain) hmsg.1

theorem error_payloads_witness :
    "UnknownFeature".toList <:+:
        ((SupportsError.UnknownFeature "UnknownFeature").Error fun _ => false).toList ∧
      ∃ err, (Supports ⟨⟨"5.2"⟩⟩ ReplacingNodeUsingHostID).2 = some err ∧
        err.Unwrap = some .noMajorMinorPatch ∧
        "5.2".toList <:+: (err.Error fun _ => false).toList := by
  constructor
  · obtain ⟨err, h1, -, h3⟩ :=
      (error_payloads (fun _ => false) ⟨⟨"5.2.0"⟩⟩ "UnknownFeature").1 rfl
    have herr : err = .UnknownFeature "UnknownFeature" := by
      have h0 : (Supports ⟨⟨"5.2.0"⟩⟩ "UnknownFeature").2 =
          some (.UnknownFeature "UnknownFeature") := rfl
      rw [h0] at h1
      exact (Option.some.inj h1).symm
    rw [← herr]
    exact h3 (by decide)
  · obtain ⟨err, h1, h2, -, -, h5⟩ :=
      (error_payloads (fun _ => false) ⟨⟨"5.2"⟩⟩ ReplacingNodeUsingHostID).2
        ⟨⟨5, 2, 0, [], []⟩, ⟨2023, 1, 0, [], []⟩⟩ .noMajorMinorPatch rfl rfl
    exact ⟨err, h1, h2, h5 (by decide)⟩

end scyllafeatures
